import Mathlib

/-!
Shallow embedding of the Mini CTF scoring store
(`kiro_scripts/database.py`).

The four SQLite tables become lists of records kept in insertion (rowid)
order; `INTEGER PRIMARY KEY` rowids become explicit `next_*_id` counters.
Timestamps (`CURRENT_TIMESTAMP`, `datetime.now()`) are passed in explicitly
as a `now : Nat` argument.  The SHA-256 password hash is an abstract
`hash : String → String` parameter.  `ORDER BY` is modelled as a stable
merge sort over the rows in rowid order.
-/

/-- Row of the `users` table. -/
structure User where
  id : Nat
  username : String
  password_hash : String
  score : Int
  is_organizer : Bool
  created_at : Nat
  deriving Repr, DecidableEq

/-- Row of the `challenges` table. -/
structure Challenge where
  id : Nat
  title : String
  description : String
  category : String
  flag : String
  points : Int
  max_attempts : Int
  is_active : Bool
  created_at : Nat
  deriving Repr, DecidableEq

/-- Row of the `submissions` table. -/
structure Submission where
  id : Nat
  user_id : Nat
  challenge_id : Nat
  submitted_flag : String
  is_correct : Bool
  submitted_at : Nat
  deriving Repr, DecidableEq

/-- Row of the `user_challenge_progress` table. -/
structure Progress where
  id : Nat
  user_id : Nat
  challenge_id : Nat
  is_solved : Bool
  attempts_count : Nat
  solved_at : Option Nat
  locked_until : Option Nat
  deriving Repr, DecidableEq

/-- The whole database: the four tables in rowid order plus the next rowid
of each table. -/
structure Store where
  users : List User
  challenges : List Challenge
  submissions : List Submission
  progresses : List Progress
  next_user_id : Nat
  next_challenge_id : Nat
  next_submission_id : Nat
  next_progress_id : Nat
  deriving Repr, DecidableEq

/-- The freshly initialised database (`init_database`): four empty tables. -/
def emptyStore : Store :=
  { users := [], challenges := [], submissions := [], progresses := []
    next_user_id := 1, next_challenge_id := 1
    next_submission_id := 1, next_progress_id := 1 }

/-- `create_user`: hash the password and insert; the `username UNIQUE`
constraint makes the insert fail (returning `none`, no row stored) when the
username already exists. -/
def create_user (hash : String → String) (st : Store) (now : Nat)
    (username password : String) (is_organizer : Bool) : Store × Option Nat :=
  if st.users.any (fun u => u.username == username) then
    (st, none)
  else
    let uid := st.next_user_id
    ({ st with
        users := st.users ++
          [{ id := uid, username := username, password_hash := hash password
             score := 0, is_organizer := is_organizer, created_at := now }]
        next_user_id := uid + 1 },
     some uid)

/-- `get_user_by_username`: first row matching the username. -/
def get_user_by_username (st : Store) (username : String) : Option User :=
  st.users.find? (fun u => u.username == username)

/-- `verify_password`: look the user up by name, recompute the hash of the
supplied password and compare with the stored hash; `none` both when the
user does not exist and when the hash differs. -/
def verify_password (hash : String → String) (st : Store)
    (username password : String) : Option User :=
  match get_user_by_username st username with
  | none => none
  | some user =>
    if user.password_hash == hash password then some user else none

/-- `create_challenge`: insert a new challenge row (`is_active` defaults
to 1) and return its rowid. -/
def create_challenge (st : Store) (now : Nat)
    (title description category flag : String) (points max_attempts : Int) :
    Store × Nat :=
  let cid := st.next_challenge_id
  ({ st with
      challenges := st.challenges ++
        [{ id := cid, title := title, description := description
           category := category, flag := flag, points := points
           max_attempts := max_attempts, is_active := true
           created_at := now }]
      next_challenge_id := cid + 1 },
   cid)

/-- Comparison used by `ORDER BY points ASC`. -/
def challengeLE (a b : Challenge) : Bool :=
  decide (a.points ≤ b.points)

/-- `get_all_challenges`: `SELECT * FROM challenges WHERE is_active = 1
ORDER BY points ASC`, the sort taken stable over rowid order. -/
def get_all_challenges (st : Store) : List Challenge :=
  (st.challenges.filter (fun c => c.is_active)).mergeSort challengeLE

/-- `get_challenge_by_id`: `SELECT * FROM challenges WHERE id = ? AND
is_active = 1`. -/
def get_challenge_by_id (st : Store) (challenge_id : Nat) : Option Challenge :=
  st.challenges.find? (fun c => c.id == challenge_id && c.is_active)

/-- The `WHERE user_id = ? AND challenge_id = ?` predicate on progress
rows. -/
def progressKey (user_id challenge_id : Nat) (p : Progress) : Bool :=
  p.user_id == user_id && p.challenge_id == challenge_id

/-- Python's `str.strip()` with no argument: remove leading and trailing
whitespace. -/
def pyStrip (s : String) : String :=
  String.mk (((s.data.dropWhile Char.isWhitespace).reverse.dropWhile
    Char.isWhitespace).reverse)

/-- `submit_flag`: the flag-submission transaction of the source, step by
step: challenge lookup (active only), already-solved short-circuit,
whitespace-trimmed exact flag comparison, submission insert, progress
upsert, conditional score update, and the result message. -/
def submit_flag (st : Store) (now : Nat) (user_id challenge_id : Nat)
    (submitted_flag : String) : Store × Bool × String :=
  match get_challenge_by_id st challenge_id with
  | none => (st, false, "Challenge not found")
  | some challenge =>
    let progress? := st.progresses.find? (progressKey user_id challenge_id)
    if (progress?.map (fun p => p.is_solved)).getD false then
      (st, false, "Challenge already solved")
    else
      let is_correct := pyStrip submitted_flag == pyStrip challenge.flag
      let st1 : Store := { st with
        submissions := st.submissions ++
          [{ id := st.next_submission_id, user_id := user_id
             challenge_id := challenge_id, submitted_flag := submitted_flag
             is_correct := is_correct, submitted_at := now }]
        next_submission_id := st.next_submission_id + 1 }
      let st2 : Store :=
        match progress? with
        | some _ =>
          { st1 with
            progresses := st1.progresses.map (fun p =>
              if progressKey user_id challenge_id p then
                { p with
                    attempts_count := p.attempts_count + 1
                    is_solved := is_correct
                    solved_at := if is_correct then some now else none }
              else p) }
        | none =>
          { st1 with
            progresses := st1.progresses ++
              [{ id := st1.next_progress_id, user_id := user_id
                 challenge_id := challenge_id, is_solved := is_correct
                 attempts_count := 1
                 solved_at := if is_correct then some now else none
                 locked_until := none }]
            next_progress_id := st1.next_progress_id + 1 }
      let st3 : Store :=
        if is_correct then
          { st2 with
            users := st2.users.map (fun u =>
              if u.id == user_id then
                { u with score := u.score + challenge.points }
              else u) }
        else st2
      if is_correct then
        (st3, true, "Correct! You earned " ++ toString challenge.points
          ++ " points!")
      else
        (st3, false, "Incorrect flag. Try again!")

/-- Comparison used by `ORDER BY score DESC, created_at ASC`. -/
def leaderboardLE (a b : User) : Bool :=
  decide (b.score < a.score ∨ (a.score = b.score ∧ a.created_at ≤ b.created_at))

/-- `get_leaderboard`: `SELECT username, score, created_at FROM users WHERE
score > 0 ORDER BY score DESC, created_at ASC`. -/
def get_leaderboard (st : Store) : List (String × Int × Nat) :=
  ((st.users.filter (fun u => decide (0 < u.score))).mergeSort
      leaderboardLE).map (fun u => (u.username, u.score, u.created_at))

/-- The progress row of a (user, challenge) pair, if any. -/
def pair_progress (st : Store) (user_id challenge_id : Nat) : Option Progress :=
  st.progresses.find? (progressKey user_id challenge_id)

/-- The pair's attempt count (0 when no progress row exists). -/
def attemptsOf (st : Store) (user_id challenge_id : Nat) : Nat :=
  ((pair_progress st user_id challenge_id).map
    (fun p => p.attempts_count)).getD 0

/-- Whether the pair is recorded as solved (false when no row exists). -/
def pair_solved (st : Store) (user_id challenge_id : Nat) : Bool :=
  ((pair_progress st user_id challenge_id).map (fun p => p.is_solved)).getD false

/-- Total point value of the challenge rows carrying a given id (under id
uniqueness: the points of that challenge, or 0 if absent). -/
def challengePoints (challenges : List Challenge) (challenge_id : Nat) : Int :=
  ((challenges.filter (fun c => c.id == challenge_id)).map
    (fun c => c.points)).sum

/-- Points a single progress row contributes to a user's expected score. -/
def progressContrib (challenges : List Challenge) (uid : Nat)
    (p : Progress) : Int :=
  if p.user_id == uid && p.is_solved then
    challengePoints challenges p.challenge_id
  else 0

/-- Sum of the points of all challenges the user has a solved progress row
for. -/
def solvedPoints (st : Store) (uid : Nat) : Int :=
  (st.progresses.map (progressContrib st.challenges uid)).sum

/-- Challenge with its `max_attempts` field blanked. -/
def eraseChallengeAttempts (c : Challenge) : Challenge :=
  { c with max_attempts := 0 }

/-- Progress row with its `attempts_count` field blanked. -/
def eraseProgressAttempts (p : Progress) : Progress :=
  { p with attempts_count := 0 }

/-- Store with every `max_attempts` and every `attempts_count` blanked: two
stores agree on everything except attempt limits and attempt counters
exactly when their erasures are equal. -/
def eraseAttempts (st : Store) : Store :=
  { st with
      challenges := st.challenges.map eraseChallengeAttempts
      progresses := st.progresses.map eraseProgressAttempts }

/-- States reachable from the freshly initialised database by any sequence
of the store's mutating operations. -/
inductive Reachable : Store → Prop where
  | init : Reachable emptyStore
  | step_create_user (hash : String → String) (now : Nat) (un pw : String)
      (org : Bool) {st : Store} : Reachable st →
      Reachable (create_user hash st now un pw org).1
  | step_create_challenge (now : Nat) (t d cat fl : String) (pts ma : Int)
      {st : Store} : Reachable st →
      Reachable (create_challenge st now t d cat fl pts ma).1
  | step_submit_flag (now uid cid : Nat) (fl : String) {st : Store} :
      Reachable st → Reachable (submit_flag st now uid cid fl).1

/-- Like `Reachable`, but every `submit_flag` call names an existing
user. -/
inductive ReachableV : Store → Prop where
  | init : ReachableV emptyStore
  | step_create_user (hash : String → String) (now : Nat) (un pw : String)
      (org : Bool) {st : Store} : ReachableV st →
      ReachableV (create_user hash st now un pw org).1
  | step_create_challenge (now : Nat) (t d cat fl : String) (pts ma : Int)
      {st : Store} : ReachableV st →
      ReachableV (create_challenge st now t d cat fl pts ma).1
  | step_submit_flag (now uid cid : Nat) (fl : String) {st : Store} :
      ReachableV st → (∃ u ∈ st.users, u.id = uid) →
      ReachableV (submit_flag st now uid cid fl).1

/-- Structural well-formedness that every reachable state enjoys: rowids
are below the next-rowid counters and strictly increasing down each table,
and progress rows have unique (user, challenge) pairs and reference
existing challenge ids. -/
structure StoreInvBase (st : Store) : Prop where
  user_id_lt : ∀ u ∈ st.users, u.id < st.next_user_id
  chal_id_lt : ∀ c ∈ st.challenges, c.id < st.next_challenge_id
  users_sorted : st.users.Pairwise (fun a b => a.id < b.id)
  chals_sorted : st.challenges.Pairwise (fun a b => a.id < b.id)
  prog_uniq : st.progresses.Pairwise
    (fun p q => ¬(p.user_id = q.user_id ∧ p.challenge_id = q.challenge_id))
  prog_chal_lt : ∀ p ∈ st.progresses, p.challenge_id < st.next_challenge_id

/-- Full invariant for `ReachableV` states: on top of `StoreInvBase`, progress
rows reference allocated user ids and every user's score equals the sum of
the points of the challenges they solved. -/
structure StoreInv (st : Store) : Prop where
  base : StoreInvBase st
  prog_user_lt : ∀ p ∈ st.progresses, p.user_id < st.next_user_id
  score_eq : ∀ u ∈ st.users, u.score = solvedPoints st u.id

/-- The submission row `submit_flag` appends. -/
def submissionRow (st : Store) (now uid cid : Nat) (fl : String)
    (ic : Bool) : Submission :=
  { id := st.next_submission_id, user_id := uid, challenge_id := cid
    submitted_flag := fl, is_correct := ic, submitted_at := now }

/-- The progress row `submit_flag` inserts on a pair's first submission. -/
def newProgressRow (st : Store) (now uid cid : Nat) (ic : Bool) : Progress :=
  { id := st.next_progress_id, user_id := uid, challenge_id := cid
    is_solved := ic, attempts_count := 1
    solved_at := if ic then some now else none, locked_until := none }

/-- How `submit_flag` rewrites an existing progress row of the pair. -/
def updateProgressRow (now : Nat) (ic : Bool) (p : Progress) : Progress :=
  { p with
      attempts_count := p.attempts_count + 1
      is_solved := ic
      solved_at := if ic then some now else none }

/-- The per-row effect of `UPDATE users SET score = score + ? WHERE id = ?`. -/
def bumpScore (uid : Nat) (pts : Int) (u : User) : User :=
  if u.id == uid then { u with score := u.score + pts } else u

theorem submit_flag_not_found (st : Store) (now uid cid : Nat) (fl : String)
    (h : get_challenge_by_id st cid = none) :
    submit_flag st now uid cid fl = (st, false, "Challenge not found") := by
  simp [submit_flag, h]

theorem submit_flag_already_solved (st : Store) (now uid cid : Nat)
    (fl : String) (ch : Challenge) (p : Progress)
    (hch : get_challenge_by_id st cid = some ch)
    (hp : pair_progress st uid cid = some p) (hs : p.is_solved = true) :
    submit_flag st now uid cid fl = (st, false, "Challenge already solved") := by
  simp only [pair_progress] at hp
  simp [submit_flag, hch, hp, hs]

theorem submit_flag_insert_correct (st : Store) (now uid cid : Nat)
    (fl : String) (ch : Challenge)
    (hch : get_challenge_by_id st cid = some ch)
    (hp : pair_progress st uid cid = none)
    (hic : pyStrip fl = pyStrip ch.flag) :
    submit_flag st now uid cid fl =
      ({ st with
          users := st.users.map (bumpScore uid ch.points)
          submissions := st.submissions ++ [submissionRow st now uid cid fl true]
          next_submission_id := st.next_submission_id + 1
          progresses := st.progresses ++ [newProgressRow st now uid cid true]
          next_progress_id := st.next_progress_id + 1 },
        true,
        "Correct! You earned " ++ toString ch.points ++ " points!") := by
  simp only [pair_progress] at hp
  simp [submit_flag, hch, hp, hic, submissionRow, newProgressRow, bumpScore]

theorem submit_flag_insert_wrong (st : Store) (now uid cid : Nat)
    (fl : String) (ch : Challenge)
    (hch : get_challenge_by_id st cid = some ch)
    (hp : pair_progress st uid cid = none)
    (hic : ¬pyStrip fl = pyStrip ch.flag) :
    submit_flag st now uid cid fl =
      ({ st with
          submissions := st.submissions ++ [submissionRow st now uid cid fl false]
          next_submission_id := st.next_submission_id + 1
          progresses := st.progresses ++ [newProgressRow st now uid cid false]
          next_progress_id := st.next_progress_id + 1 },
        false, "Incorrect flag. Try again!") := by
  simp only [pair_progress] at hp
  simp [submit_flag, hch, hp, hic, submissionRow, newProgressRow]

theorem submit_flag_update_correct (st : Store) (now uid cid : Nat)
    (fl : String) (ch : Challenge) (p : Progress)
    (hch : get_challenge_by_id st cid = some ch)
    (hp : pair_progress st uid cid = some p) (hs : p.is_solved = false)
    (hic : pyStrip fl = pyStrip ch.flag) :
    submit_flag st now uid cid fl =
      ({ st with
          users := st.users.map (bumpScore uid ch.points)
          submissions := st.submissions ++ [submissionRow st now uid cid fl true]
          next_submission_id := st.next_submission_id + 1
          progresses := st.progresses.map (fun q =>
            if progressKey uid cid q then updateProgressRow now true q else q) },
        true,
        "Correct! You earned " ++ toString ch.points ++ " points!") := by
  simp only [pair_progress] at hp
  simp [submit_flag, hch, hp, hs, hic, submissionRow, updateProgressRow,
    bumpScore]

theorem submit_flag_update_wrong (st : Store) (now uid cid : Nat)
    (fl : String) (ch : Challenge) (p : Progress)
    (hch : get_challenge_by_id st cid = some ch)
    (hp : pair_progress st uid cid = some p) (hs : p.is_solved = false)
    (hic : ¬pyStrip fl = pyStrip ch.flag) :
    submit_flag st now uid cid fl =
      ({ st with
          submissions := st.submissions ++ [submissionRow st now uid cid fl false]
          next_submission_id := st.next_submission_id + 1
          progresses := st.progresses.map (fun q =>
            if progressKey uid cid q then updateProgressRow now false q else q) },
        false, "Incorrect flag. Try again!") := by
  simp only [pair_progress] at hp
  have hb : (pyStrip fl == pyStrip ch.flag) = false := beq_eq_false_iff_ne.mpr hic
  simp [submit_flag, hch, hp, hs, hb, submissionRow, updateProgressRow]

/-- Example hash function used in concrete scenarios. -/
def exHash : String → String := fun s => "H" ++ s

/-- One active 100-point challenge with flag "ctf_flag" (id 1). -/
def exStore1 : Store :=
  (create_challenge emptyStore 10 "Title" "Desc" "web" "ctf_flag" 100 (-1)).1

/-- The challenge row stored in `exStore1`. -/
def exChallenge : Challenge :=
  { id := 1, title := "Title", description := "Desc", category := "web"
    flag := "ctf_flag", points := 100, max_attempts := -1
    is_active := true, created_at := 10 }

/-- `exStore1` plus the registered user "alice" (id 1). -/
def exStore2 : Store := (create_user exHash exStore1 11 "alice" "pw" false).1

/-- `exStore2` after alice correctly solves challenge 1. -/
def exStore3 : Store := (submit_flag exStore2 12 1 1 " ctf_flag ").1

/-- `exStore2` after alice submits a wrong flag for challenge 1. -/
def exStoreWrong : Store := (submit_flag exStore2 12 1 1 "nope").1

/-- Like `exStore1` but the challenge has `max_attempts = 5`. -/
def exStore1b : Store :=
  (create_challenge emptyStore 10 "Title" "Desc" "web" "ctf_flag" 100 5).1

/-- Like `exStore2` but built on `exStore1b`. -/
def exStore2b : Store := (create_user exHash exStore1b 11 "alice" "pw" false).1

/-- A challenge is created, then a flag is submitted for a user id (1) that
does not exist yet. -/
def cexStore2 : Store :=
  (submit_flag
    (create_challenge emptyStore 0 "t" "d" "c" "secret" 100 (-1)).1
    1 1 1 "secret").1

/-- After the phantom submission, user "alice" is created and receives the
same id (1) the phantom submission referenced. -/
def cexStore3 : Store := (create_user exHash cexStore2 2 "alice" "pw" false).1

theorem progressKey_iff (uid cid : Nat) (p : Progress) :
    progressKey uid cid p = true ↔ p.user_id = uid ∧ p.challenge_id = cid := by
  simp [progressKey]

theorem find?_key_unique {ps : List Progress} {uid cid : Nat} {p : Progress}
    (hu : ps.Pairwise
      (fun p q => ¬(p.user_id = q.user_id ∧ p.challenge_id = q.challenge_id)))
    (hf : ps.find? (progressKey uid cid) = some p) :
    ∀ q ∈ ps, progressKey uid cid q = true → q = p := by
  intro q hq hkey
  rw [List.find?_eq_some] at hf
  obtain ⟨hkp, as, bs, hsplit, has⟩ := hf
  subst hsplit
  rcases List.mem_append.mp hq with h | h
  · have := has q h
    simp [hkey] at this
  · rcases List.mem_cons.mp h with h | h
    · exact h
    · exfalso
      have hmid := (List.pairwise_append.mp hu).2.1
      have hR := (List.pairwise_cons.mp hmid).1 q h
      rw [progressKey_iff] at hkp hkey
      exact hR ⟨hkp.1.trans hkey.1.symm, hkp.2.trans hkey.2.symm⟩

theorem key_not_in_rest {ps : List Progress} {uid cid : Nat} {p : Progress}
    (hu : ps.Pairwise
      (fun p q => ¬(p.user_id = q.user_id ∧ p.challenge_id = q.challenge_id)))
    (hf : ps.find? (progressKey uid cid) = some p) :
    ∃ as bs, ps = as ++ p :: bs ∧
      (∀ a ∈ as, progressKey uid cid a = false) ∧
      (∀ b ∈ bs, progressKey uid cid b = false) := by
  have hf' := hf
  rw [List.find?_eq_some] at hf'
  obtain ⟨hkp, as, bs, hsplit, has⟩ := hf'
  refine ⟨as, bs, hsplit, ?_, ?_⟩
  · intro a ha
    have := has a ha
    simpa using this
  · intro b hb
    subst hsplit
    by_contra hkb
    simp only [Bool.not_eq_false] at hkb
    have hmid := (List.pairwise_append.mp hu).2.1
    have hR := (List.pairwise_cons.mp hmid).1 b hb
    rw [progressKey_iff] at hkp hkb
    exact hR ⟨hkp.1.trans hkb.1.symm, hkp.2.trans hkb.2.symm⟩

theorem challengePoints_of_find? {chs : List Challenge} {cid : Nat}
    {ch : Challenge}
    (hs : chs.Pairwise (fun a b => a.id < b.id))
    (hf : chs.find? (fun c => c.id == cid && c.is_active) = some ch) :
    challengePoints chs cid = ch.points := by
  rw [List.find?_eq_some] at hf
  obtain ⟨hkp, as, bs, hsplit, -⟩ := hf
  have hchid : ch.id = cid := by
    simp only [Bool.and_eq_true, beq_iff_eq] at hkp
    exact hkp.1
  subst hsplit
  have hcross := (List.pairwise_append.mp hs).2.2
  have hmid := (List.pairwise_append.mp hs).2.1
  have hasnil : as.filter (fun c => c.id == cid) = [] := by
    rw [List.filter_eq_nil_iff]
    intro a ha
    have := hcross a ha ch (List.mem_cons_self _ _)
    simp only [beq_iff_eq]
    omega
  have hbsnil : bs.filter (fun c => c.id == cid) = [] := by
    rw [List.filter_eq_nil_iff]
    intro b hb
    have := (List.pairwise_cons.mp hmid).1 b hb
    simp only [beq_iff_eq]
    omega
  simp [challengePoints, List.filter_append, hasnil, hbsnil, hchid]

theorem get_challenge_mem {st : Store} {cid : Nat} {ch : Challenge}
    (h : get_challenge_by_id st cid = some ch) :
    ch ∈ st.challenges ∧ ch.id = cid ∧ ch.is_active = true := by
  have hm := List.mem_of_find?_eq_some h
  have hp := List.find?_some h
  simp only [Bool.and_eq_true, beq_iff_eq] at hp
  exact ⟨hm, hp.1, hp.2⟩

theorem invBase_empty : StoreInvBase emptyStore := by
  constructor <;> simp [emptyStore]

theorem invBase_create_user (hash : String → String) (st : Store) (now : Nat)
    (un pw : String) (org : Bool) (h : StoreInvBase st) :
    StoreInvBase (create_user hash st now un pw org).1 := by
  unfold create_user
  by_cases hdup : st.users.any (fun u => u.username == un)
  · simpa [hdup] using h
  · rw [if_neg hdup]
    constructor
    · intro u hu
      rcases List.mem_append.mp hu with h' | h'
      · exact Nat.lt_succ_of_lt (h.user_id_lt u h')
      · simp at h'
        subst h'
        exact Nat.lt_succ_self _
    · exact h.chal_id_lt
    · rw [List.pairwise_append]
      refine ⟨h.users_sorted, by simp, ?_⟩
      intro a ha b hb
      simp at hb
      subst hb
      exact h.user_id_lt a ha
    · exact h.chals_sorted
    · exact h.prog_uniq
    · exact h.prog_chal_lt

theorem invBase_create_challenge (st : Store) (now : Nat)
    (t d cat fl : String) (pts ma : Int) (h : StoreInvBase st) :
    StoreInvBase (create_challenge st now t d cat fl pts ma).1 := by
  unfold create_challenge
  constructor
  · exact h.user_id_lt
  · intro c hc
    rcases List.mem_append.mp hc with h' | h'
    · exact Nat.lt_succ_of_lt (h.chal_id_lt c h')
    · simp at h'
      subst h'
      exact Nat.lt_succ_self _
  · exact h.users_sorted
  · rw [List.pairwise_append]
    refine ⟨h.chals_sorted, by simp, ?_⟩
    intro a ha b hb
    simp at hb
    subst hb
    exact h.chal_id_lt a ha
  · exact h.prog_uniq
  · intro p hp
    exact Nat.lt_succ_of_lt (h.prog_chal_lt p hp)

@[simp] theorem bumpScore_id (uid : Nat) (pts : Int) (u : User) :
    (bumpScore uid pts u).id = u.id := by
  unfold bumpScore
  split <;> rfl

@[simp] theorem updateProgressRow_user_id (now : Nat) (ic : Bool)
    (p : Progress) : (updateProgressRow now ic p).user_id = p.user_id := rfl

@[simp] theorem updateProgressRow_challenge_id (now : Nat) (ic : Bool)
    (p : Progress) :
    (updateProgressRow now ic p).challenge_id = p.challenge_id := rfl

@[simp] theorem newProgressRow_user_id (st : Store) (now uid cid : Nat)
    (ic : Bool) : (newProgressRow st now uid cid ic).user_id = uid := rfl

@[simp] theorem newProgressRow_challenge_id (st : Store) (now uid cid : Nat)
    (ic : Bool) : (newProgressRow st now uid cid ic).challenge_id = cid := rfl

theorem progressUpd_user_id (uid cid now : Nat) (ic : Bool) (q : Progress) :
    (if progressKey uid cid q then updateProgressRow now ic q else q).user_id
      = q.user_id := by
  split <;> rfl

theorem progressUpd_challenge_id (uid cid now : Nat) (ic : Bool)
    (q : Progress) :
    (if progressKey uid cid q then
      updateProgressRow now ic q else q).challenge_id = q.challenge_id := by
  split <;> rfl

theorem pair_progress_none_iff (st : Store) (uid cid : Nat) :
    pair_progress st uid cid = none ↔
      ∀ q ∈ st.progresses, ¬(q.user_id = uid ∧ q.challenge_id = cid) := by
  unfold pair_progress
  rw [List.find?_eq_none]
  constructor
  · intro h q hq hk
    exact h q hq ((progressKey_iff uid cid q).mpr hk)
  · intro h q hq hk
    exact h q hq ((progressKey_iff uid cid q).mp hk)

theorem invBase_users_map (st : Store) (f : User → User)
    (hid : ∀ u, (f u).id = u.id) (h : StoreInvBase st) :
    StoreInvBase { st with users := st.users.map f } := by
  constructor
  · intro v hv
    rcases List.mem_map.mp hv with ⟨u, hu, rfl⟩
    rw [hid]
    exact h.user_id_lt u hu
  · exact h.chal_id_lt
  · exact List.pairwise_map.mpr (h.users_sorted.imp (by
      intro a b hab
      simpa [hid] using hab))
  · exact h.chals_sorted
  · exact h.prog_uniq
  · exact h.prog_chal_lt

theorem invBase_prog_insert (st : Store) (now uid cid : Nat) (fl : String)
    (ic : Bool)
    (ch : Challenge) (hch : get_challenge_by_id st cid = some ch)
    (hp : pair_progress st uid cid = none) (h : StoreInvBase st) :
    StoreInvBase { st with
      submissions := st.submissions ++ [submissionRow st now uid cid fl ic]
      next_submission_id := st.next_submission_id + 1
      progresses := st.progresses ++ [newProgressRow st now uid cid ic]
      next_progress_id := st.next_progress_id + 1 } := by
  obtain ⟨hmem, hid, -⟩ := get_challenge_mem hch
  constructor
  · exact h.user_id_lt
  · exact h.chal_id_lt
  · exact h.users_sorted
  · exact h.chals_sorted
  · rw [List.pairwise_append]
    refine ⟨h.prog_uniq, by simp, ?_⟩
    intro a ha b hb
    simp only [List.mem_singleton] at hb
    subst hb
    simp only [newProgressRow_user_id, newProgressRow_challenge_id]
    exact (pair_progress_none_iff st uid cid).mp hp a ha
  · intro p hp'
    rcases List.mem_append.mp hp' with h' | h'
    · exact h.prog_chal_lt p h'
    · simp only [List.mem_singleton] at h'
      subst h'
      simp only [newProgressRow_challenge_id]
      rw [← hid]
      exact h.chal_id_lt ch hmem

theorem invBase_prog_update (st : Store) (now uid cid : Nat) (fl : String)
    (ic : Bool) (h : StoreInvBase st) :
    StoreInvBase { st with
      submissions := st.submissions ++ [submissionRow st now uid cid fl ic]
      next_submission_id := st.next_submission_id + 1
      progresses := st.progresses.map (fun q =>
        if progressKey uid cid q then updateProgressRow now ic q else q) } := by
  constructor
  · exact h.user_id_lt
  · exact h.chal_id_lt
  · exact h.users_sorted
  · exact h.chals_sorted
  · exact List.pairwise_map.mpr (h.prog_uniq.imp (by
      intro a b hab
      simpa [progressUpd_user_id, progressUpd_challenge_id] using hab))
  · intro p hp'
    rcases List.mem_map.mp hp' with ⟨q, hq, rfl⟩
    rw [progressUpd_challenge_id]
    exact h.prog_chal_lt q hq

theorem challengePoints_append_new {chs : List Challenge} {c : Challenge}
    {cid : Nat} (h : c.id ≠ cid) :
    challengePoints (chs ++ [c]) cid = challengePoints chs cid := by
  have : [c].filter (fun x => x.id == cid) = [] := by
    simp [List.filter_eq_nil_iff, h]
  simp [challengePoints, List.filter_append, this]

theorem progressContrib_irrelevant_user {chs : List Challenge} {x : Nat}
    {p : Progress} (h : p.user_id ≠ x) : progressContrib chs x p = 0 := by
  simp [progressContrib, h]

theorem progressContrib_unsolved {chs : List Challenge} {x : Nat}
    {p : Progress} (h : p.is_solved = false) : progressContrib chs x p = 0 := by
  simp [progressContrib, h]

theorem solvedPoints_no_user {st : Store} {x : Nat}
    (h : ∀ p ∈ st.progresses, p.user_id ≠ x) : solvedPoints st x = 0 := by
  unfold solvedPoints
  apply List.sum_eq_zero
  intro y hy
  rcases List.mem_map.mp hy with ⟨p, hp, rfl⟩
  exact progressContrib_irrelevant_user (h p hp)

theorem inv_create_user (hash : String → String) (st : Store) (now : Nat)
    (un pw : String) (org : Bool) (h : StoreInv st) :
    StoreInv (create_user hash st now un pw org).1 := by
  unfold create_user
  by_cases hdup : st.users.any (fun u => u.username == un)
  · simpa [hdup] using h
  · rw [if_neg hdup]
    refine ⟨?_, ?_, ?_⟩
    · have := invBase_create_user hash st now un pw org h.base
      unfold create_user at this
      rwa [if_neg hdup] at this
    · intro p hp
      exact Nat.lt_succ_of_lt (h.prog_user_lt p hp)
    · intro u hu
      rcases List.mem_append.mp hu with h' | h'
      · have := h.score_eq u h'
        simpa [solvedPoints] using this
      · simp only [List.mem_singleton] at h'
        subst h'
        have : solvedPoints st st.next_user_id = 0 :=
          solvedPoints_no_user (fun p hp =>
            Nat.ne_of_lt (h.prog_user_lt p hp))
        simpa [solvedPoints] using this.symm

theorem inv_create_challenge (st : Store) (now : Nat) (t d cat fl : String)
    (pts ma : Int) (h : StoreInv st) :
    StoreInv (create_challenge st now t d cat fl pts ma).1 := by
  refine ⟨invBase_create_challenge st now t d cat fl pts ma h.base, ?_, ?_⟩
  · intro p hp
    exact h.prog_user_lt p hp
  · intro u hu
    have := h.score_eq u hu
    rw [this]
    unfold create_challenge solvedPoints
    simp only
    apply congrArg List.sum
    apply List.map_congr_left
    intro p hp
    have hlt : p.challenge_id < st.next_challenge_id := h.base.prog_chal_lt p hp
    unfold progressContrib
    rw [challengePoints_append_new (by simp; omega)]

theorem contrib_new_correct {st : Store} {now uid cid x : Nat}
    {ch : Challenge}
    (hs : st.challenges.Pairwise (fun a b => a.id < b.id))
    (hch : get_challenge_by_id st cid = some ch) :
    progressContrib st.challenges x (newProgressRow st now uid cid true)
      = if x = uid then ch.points else 0 := by
  have hcp : challengePoints st.challenges cid = ch.points :=
    challengePoints_of_find? hs (by simpa [get_challenge_by_id] using hch)
  unfold progressContrib newProgressRow
  by_cases hx : x = uid
  · subst hx
    simp [hcp]
  · simp [hx, Ne.symm hx]

theorem contrib_update_correct {st : Store} {now uid cid x : Nat}
    {ch : Challenge} {p : Progress}
    (hs : st.challenges.Pairwise (fun a b => a.id < b.id))
    (hch : get_challenge_by_id st cid = some ch)
    (hkey : progressKey uid cid p = true) :
    progressContrib st.challenges x (updateProgressRow now true p)
      = if x = uid then ch.points else 0 := by
  have hcp : challengePoints st.challenges cid = ch.points :=
    challengePoints_of_find? hs (by simpa [get_challenge_by_id] using hch)
  rw [progressKey_iff] at hkey
  unfold progressContrib updateProgressRow
  by_cases hx : x = uid
  · subst hx
    simp [hkey.1, hkey.2, hcp]
  · simp [hkey.1, hx, Ne.symm hx]


theorem map_update_split {ps : List Progress} {uid cid : Nat} {p : Progress}
    (huniq : ps.Pairwise
      (fun p q => ¬(p.user_id = q.user_id ∧ p.challenge_id = q.challenge_id)))
    (hp : ps.find? (progressKey uid cid) = some p) (f : Progress → Progress) :
    ∃ as bs, ps = as ++ p :: bs ∧
      ps.map (fun q => if progressKey uid cid q then f q else q)
        = as ++ f p :: bs := by
  obtain ⟨as, bs, hsplit, has, hbs⟩ := key_not_in_rest huniq hp
  have hkp : progressKey uid cid p = true := List.find?_some hp
  refine ⟨as, bs, hsplit, ?_⟩
  rw [hsplit, List.map_append, List.map_cons, hkp, if_pos rfl]
  congr 1
  · conv_rhs => rw [← List.map_id as]
    apply List.map_congr_left
    intro a ha
    rw [has a ha]
    simp
  · congr 1
    conv_rhs => rw [← List.map_id bs]
    apply List.map_congr_left
    intro b hb
    rw [hbs b hb]
    simp

theorem sum_map_update {ps : List Progress} {uid cid : Nat} {p : Progress}
    (huniq : ps.Pairwise
      (fun p q => ¬(p.user_id = q.user_id ∧ p.challenge_id = q.challenge_id)))
    (hp : ps.find? (progressKey uid cid) = some p) (f : Progress → Progress)
    (g : Progress → Int) :
    ((ps.map (fun q => if progressKey uid cid q then f q else q)).map g).sum
      = ((ps.map g).sum - g p) + g (f p) := by
  obtain ⟨as, bs, h1, h2⟩ := map_update_split huniq hp f
  rw [h2]
  conv_rhs => rw [h1]
  simp only [List.map_append, List.map_cons, List.sum_append, List.sum_cons]
  ring

theorem score_eq_map_bump {st : Store} {uid : Nat} {pts : Int}
    (hscore : ∀ u ∈ st.users, u.score = solvedPoints st u.id)
    (S : Nat → Int)
    (hS : ∀ x, S x = solvedPoints st x + (if x = uid then pts else 0)) :
    ∀ v ∈ st.users.map (bumpScore uid pts), v.score = S v.id := by
  intro v hv
  rcases List.mem_map.mp hv with ⟨u, hu, rfl⟩
  rw [bumpScore_id, hS]
  unfold bumpScore
  by_cases hid : u.id = uid
  · simp [hid, hscore u hu]
  · simp [hid, hscore u hu]

theorem inv_submit_flag (st : Store) (now uid cid : Nat) (fl : String)
    (hu : ∃ u ∈ st.users, u.id = uid) (h : StoreInv st) :
    StoreInv (submit_flag st now uid cid fl).1 := by
  rcases hch : get_challenge_by_id st cid with _ | ch
  · rw [submit_flag_not_found st now uid cid fl hch]
    exact h
  · rcases hp : pair_progress st uid cid with _ | p
    · have hsp : ∀ x,
          ((st.progresses ++ [newProgressRow st now uid cid true]).map
            (progressContrib st.challenges x)).sum
          = solvedPoints st x + (if x = uid then ch.points else 0) := by
        intro x
        rw [List.map_append, List.sum_append]
        simp only [List.map_cons, List.map_nil, List.sum_cons, List.sum_nil,
          add_zero]
        rw [contrib_new_correct h.base.chals_sorted hch]
        simp [solvedPoints]
      have hsp0 : ∀ x,
          ((st.progresses ++ [newProgressRow st now uid cid false]).map
            (progressContrib st.challenges x)).sum = solvedPoints st x := by
        intro x
        rw [List.map_append, List.sum_append]
        simp only [List.map_cons, List.map_nil, List.sum_cons, List.sum_nil,
          add_zero]
        rw [progressContrib_unsolved
          (show (newProgressRow st now uid cid false).is_solved = false
            from rfl)]
        simp [solvedPoints]
      by_cases hic : pyStrip fl = pyStrip ch.flag
      · rw [submit_flag_insert_correct st now uid cid fl ch hch hp hic]
        refine ⟨?_, ?_, ?_⟩
        · exact invBase_users_map _ _ (fun u => bumpScore_id uid ch.points u)
            (invBase_prog_insert st now uid cid fl true ch hch hp h.base)
        · intro q hq
          rcases List.mem_append.mp hq with h' | h'
          · exact h.prog_user_lt q h'
          · simp only [List.mem_singleton] at h'
            subst h'
            rw [newProgressRow_user_id]
            obtain ⟨u, hu', rfl⟩ := hu
            exact h.base.user_id_lt u hu'
        · exact score_eq_map_bump h.score_eq _ hsp
      · rw [submit_flag_insert_wrong st now uid cid fl ch hch hp hic]
        refine ⟨?_, ?_, ?_⟩
        · exact invBase_prog_insert st now uid cid fl false ch hch hp h.base
        · intro q hq
          rcases List.mem_append.mp hq with h' | h'
          · exact h.prog_user_lt q h'
          · simp only [List.mem_singleton] at h'
            subst h'
            rw [newProgressRow_user_id]
            obtain ⟨u, hu', rfl⟩ := hu
            exact h.base.user_id_lt u hu'
        · intro v hv
          rw [h.score_eq v hv]
          exact (hsp0 v.id).symm
    · have hpf : st.progresses.find? (progressKey uid cid) = some p := by
        simpa [pair_progress] using hp
      have hkp : progressKey uid cid p = true := List.find?_some hpf
      rcases hsol : p.is_solved with _ | _
      · have hsp : ∀ x,
            ((st.progresses.map (fun q =>
              if progressKey uid cid q then
                updateProgressRow now true q else q)).map
              (progressContrib st.challenges x)).sum
            = solvedPoints st x + (if x = uid then ch.points else 0) := by
          intro x
          rw [sum_map_update h.base.prog_uniq hpf]
          rw [progressContrib_unsolved hsol]
          rw [contrib_update_correct h.base.chals_sorted hch hkp]
          simp [solvedPoints]
        have hsp0 : ∀ x,
            ((st.progresses.map (fun q =>
              if progressKey uid cid q then
                updateProgressRow now false q else q)).map
              (progressContrib st.challenges x)).sum = solvedPoints st x := by
          intro x
          rw [sum_map_update h.base.prog_uniq hpf]
          rw [progressContrib_unsolved hsol]
          rw [progressContrib_unsolved rfl]
          simp [solvedPoints]
        by_cases hic : pyStrip fl = pyStrip ch.flag
        · rw [submit_flag_update_correct st now uid cid fl ch p hch hp hsol hic]
          refine ⟨?_, ?_, ?_⟩
          · exact invBase_users_map _ _ (fun u => bumpScore_id uid ch.points u)
              (invBase_prog_update st now uid cid fl true h.base)
          · intro q hq
            rcases List.mem_map.mp hq with ⟨r, hr, rfl⟩
            rw [progressUpd_user_id]
            exact h.prog_user_lt r hr
          · exact score_eq_map_bump h.score_eq _ hsp
        · rw [submit_flag_update_wrong st now uid cid fl ch p hch hp hsol hic]
          refine ⟨?_, ?_, ?_⟩
          · exact invBase_prog_update st now uid cid fl false h.base
          · intro q hq
            rcases List.mem_map.mp hq with ⟨r, hr, rfl⟩
            rw [progressUpd_user_id]
            exact h.prog_user_lt r hr
          · intro v hv
            rw [h.score_eq v hv]
            exact (hsp0 v.id).symm
      · rw [submit_flag_already_solved st now uid cid fl ch p hch hp hsol]
        exact h

theorem invBase_submit_flag (st : Store) (now uid cid : Nat) (fl : String)
    (h : StoreInvBase st) : StoreInvBase (submit_flag st now uid cid fl).1 := by
  rcases hch : get_challenge_by_id st cid with _ | ch
  · rw [submit_flag_not_found st now uid cid fl hch]
    exact h
  · rcases hp : pair_progress st uid cid with _ | p
    · by_cases hic : pyStrip fl = pyStrip ch.flag
      · rw [submit_flag_insert_correct st now uid cid fl ch hch hp hic]
        exact invBase_users_map _ _ (fun u => bumpScore_id uid ch.points u)
          (invBase_prog_insert st now uid cid fl true ch hch hp h)
      · rw [submit_flag_insert_wrong st now uid cid fl ch hch hp hic]
        exact invBase_prog_insert st now uid cid fl false ch hch hp h
    · rcases hsol : p.is_solved with _ | _
      · by_cases hic : pyStrip fl = pyStrip ch.flag
        · rw [submit_flag_update_correct st now uid cid fl ch p hch hp hsol hic]
          exact invBase_users_map _ _ (fun u => bumpScore_id uid ch.points u)
            (invBase_prog_update st now uid cid fl true h)
        · rw [submit_flag_update_wrong st now uid cid fl ch p hch hp hsol hic]
          exact invBase_prog_update st now uid cid fl false h
      · rw [submit_flag_already_solved st now uid cid fl ch p hch hp hsol]
        exact h

theorem reachable_invBase {st : Store} (h : Reachable st) : StoreInvBase st := by
  induction h with
  | init => exact invBase_empty
  | step_create_user hash now un pw org h ih =>
    exact invBase_create_user hash _ now un pw org ih
  | step_create_challenge now t d cat fl pts ma h ih =>
    exact invBase_create_challenge _ now t d cat fl pts ma ih
  | step_submit_flag now uid cid fl h ih =>
    exact invBase_submit_flag _ now uid cid fl ih

theorem reachableV_inv {st : Store} (h : ReachableV st) : StoreInv st := by
  induction h with
  | init =>
    refine ⟨invBase_empty, ?_, ?_⟩ <;> simp [emptyStore]
  | step_create_user hash now un pw org h ih =>
    exact inv_create_user hash _ now un pw org ih
  | step_create_challenge now t d cat fl pts ma h ih =>
    exact inv_create_challenge _ now t d cat fl pts ma ih
  | step_submit_flag now uid cid fl h hex ih =>
    exact inv_submit_flag _ now uid cid fl hex ih

/-- C2: when no active challenge has the submitted id, `submit_flag`
returns (false, "Challenge not found") with the store unchanged; when the
pair's progress row is already solved, it returns (false, "Challenge
already solved") with the store unchanged — no submission row, no progress
change and no score change, so the solved state is terminal. -/
theorem submit_flag_rejects_without_writes (st : Store) (now uid cid : Nat)
    (fl : String) :
    (get_challenge_by_id st cid = none →
      submit_flag st now uid cid fl = (st, false, "Challenge not found")) ∧
    (∀ ch p, get_challenge_by_id st cid = some ch →
      pair_progress st uid cid = some p → p.is_solved = true →
      submit_flag st now uid cid fl = (st, false, "Challenge already solved")) := by
  constructor
  · intro h
    exact submit_flag_not_found st now uid cid fl h
  · intro ch p hch hp hs
    exact submit_flag_already_solved st now uid cid fl ch p hch hp hs

theorem submit_flag_rejects_without_writes_witness :
    submit_flag exStore3 20 1 2 "x" = (exStore3, false, "Challenge not found") ∧
    submit_flag exStore3 20 1 1 "ctf_flag"
      = (exStore3, false, "Challenge already solved") := by
  constructor
  · exact (submit_flag_rejects_without_writes exStore3 20 1 2 "x").1 (by decide)
  · exact (submit_flag_rejects_without_writes exStore3 20 1 1 "ctf_flag").2
      exChallenge
      { id := 1, user_id := 1, challenge_id := 1, is_solved := true
        attempts_count := 1, solved_at := some 12, locked_until := none }
      (by decide) (by decide) (by decide)

/-- C1: for an active challenge and a pair not already solved, the
submission is accepted iff the stripped submitted flag equals the stripped
stored flag (case-sensitive); on success the message reports the
challenge's points and every user row carrying the submitting id has its
score incremented by exactly those points (all other rows unchanged); on
failure the message is the incorrect-flag message and the user table is
untouched. -/
theorem submit_flag_trimmed_match_scoring (st : Store) (now uid cid : Nat)
    (fl : String) (ch : Challenge)
    (hch : get_challenge_by_id st cid = some ch)
    (hns : pair_solved st uid cid = false) :
    ((submit_flag st now uid cid fl).2.1 = true ↔
        pyStrip fl = pyStrip ch.flag) ∧
    (pyStrip fl = pyStrip ch.flag →
      (submit_flag st now uid cid fl).2.2
          = "Correct! You earned " ++ toString ch.points ++ " points!" ∧
      (submit_flag st now uid cid fl).1.users
          = st.users.map (bumpScore uid ch.points) ∧
      ∀ u ∈ st.users, u.id = uid →
        { u with score := u.score + ch.points }
          ∈ (submit_flag st now uid cid fl).1.users) ∧
    (pyStrip fl ≠ pyStrip ch.flag →
      (submit_flag st now uid cid fl).2.2 = "Incorrect flag. Try again!" ∧
      (submit_flag st now uid cid fl).1.users = st.users) := by
  have main : (pyStrip fl = pyStrip ch.flag →
      submit_flag st now uid cid fl = ((submit_flag st now uid cid fl).1,
        true, "Correct! You earned " ++ toString ch.points ++ " points!") ∧
      (submit_flag st now uid cid fl).1.users
        = st.users.map (bumpScore uid ch.points)) ∧
      (pyStrip fl ≠ pyStrip ch.flag →
      submit_flag st now uid cid fl = ((submit_flag st now uid cid fl).1,
        false, "Incorrect flag. Try again!") ∧
      (submit_flag st now uid cid fl).1.users = st.users) := by
    rcases hp : pair_progress st uid cid with _ | p
    · constructor
      · intro hic
        rw [submit_flag_insert_correct st now uid cid fl ch hch hp hic]
        exact ⟨rfl, rfl⟩
      · intro hic
        rw [submit_flag_insert_wrong st now uid cid fl ch hch hp hic]
        exact ⟨rfl, rfl⟩
    · have hsol : p.is_solved = false := by
        simp [pair_solved, hp] at hns
        exact hns
      constructor
      · intro hic
        rw [submit_flag_update_correct st now uid cid fl ch p hch hp hsol hic]
        exact ⟨rfl, rfl⟩
      · intro hic
        rw [submit_flag_update_wrong st now uid cid fl ch p hch hp hsol hic]
        exact ⟨rfl, rfl⟩
  refine ⟨?_, ?_, ?_⟩
  · constructor
    · intro hacc
      by_contra hic
      have := (main.2 hic).1
      rw [this] at hacc
      simp at hacc
    · intro hic
      rw [(main.1 hic).1]
  · intro hic
    obtain ⟨heq, husers⟩ := main.1 hic
    refine ⟨by rw [heq], husers, ?_⟩
    intro u hu hid
    rw [husers]
    refine List.mem_map.mpr ⟨u, hu, ?_⟩
    unfold bumpScore
    rw [if_pos (by simp [hid])]
  · intro hic
    obtain ⟨heq, husers⟩ := main.2 hic
    exact ⟨by rw [heq], husers⟩

theorem submit_flag_trimmed_match_scoring_witness :
    (submit_flag exStore2 12 1 1 " ctf_flag ").2.2
        = "Correct! You earned 100 points!" ∧
    (submit_flag exStore2 12 1 1 "wrong").1.users = exStore2.users := by
  constructor
  · exact (((submit_flag_trimmed_match_scoring exStore2 12 1 1 " ctf_flag "
      exChallenge (by decide) (by decide)).2.1 (by decide)).1)
  · exact (((submit_flag_trimmed_match_scoring exStore2 12 1 1 "wrong"
      exChallenge (by decide) (by decide)).2.2 (by decide)).2)

/-- C8: `verify_password` returns a user record exactly when a user with
that username exists and the hash of the supplied password equals the
stored hash; a missing username and a wrong password both yield the same
`none` signal, so the two failure causes are indistinguishable from the
returned value. -/
theorem verify_password_spec (hash : String → String) (st : Store)
    (un pw : String) :
    (∀ r : User, verify_password hash st un pw = some r ↔
        get_user_by_username st un = some r ∧ r.password_hash = hash pw) ∧
    (get_user_by_username st un = none →
      verify_password hash st un pw = none) ∧
    (∀ r : User, get_user_by_username st un = some r →
      r.password_hash ≠ hash pw → verify_password hash st un pw = none) := by
  refine ⟨?_, ?_, ?_⟩
  · intro r
    constructor
    · intro h
      rcases hg : get_user_by_username st un with _ | u
      · simp only [verify_password, hg] at h
        simp at h
      · simp only [verify_password, hg] at h
        by_cases hb : u.password_hash = hash pw
        · simp only [hb, beq_self_eq_true, if_true] at h
          obtain rfl : u = r := by simpa using h
          exact ⟨rfl, hb⟩
        · rw [if_neg (by simpa using hb)] at h
          simp at h
    · rintro ⟨hg, hh⟩
      simp only [verify_password, hg]
      rw [if_pos (by simpa using hh)]
  · intro hg
    simp only [verify_password, hg]
  · intro r hg hh
    simp only [verify_password, hg]
    rw [if_neg (by simpa using hh)]

theorem verify_password_spec_witness :
    verify_password exHash exStore2 "alice" "pw"
        = some { id := 1, username := "alice", password_hash := "Hpw"
                 score := 0, is_organizer := false, created_at := 11 } ∧
    verify_password exHash exStore2 "alice" "bad" = none ∧
    verify_password exHash exStore2 "bob" "pw" = none := by
  refine ⟨?_, ?_, ?_⟩
  · exact ((verify_password_spec exHash exStore2 "alice" "pw").1 _).mpr
      ⟨by decide, by decide⟩
  · exact (verify_password_spec exHash exStore2 "alice" "bad").2.2
      { id := 1, username := "alice", password_hash := "Hpw", score := 0
        is_organizer := false, created_at := 11 }
      (by decide) (by decide)
  · exact (verify_password_spec exHash exStore2 "bob" "pw").2.1 (by decide)

/-- C7: in any reachable store, `create_user` succeeds exactly when the
username is not taken, returning an identifier distinct from every stored
user's id and appending the new row; with a taken username it returns the
failure signal `none` and stores nothing, the duplicate being surfaced by
the insert itself (the source catches the UNIQUE-constraint violation, it
performs no separate pre-check query). -/
theorem create_user_duplicate_detection (hash : String → String) (st : Store)
    (now : Nat) (un pw : String) (org : Bool) (h : Reachable st) :
    ((∃ u ∈ st.users, u.username = un) →
      create_user hash st now un pw org = (st, none)) ∧
    (¬(∃ u ∈ st.users, u.username = un) →
      (create_user hash st now un pw org).2 = some st.next_user_id ∧
      (∀ u ∈ st.users, u.id ≠ st.next_user_id) ∧
      (create_user hash st now un pw org).1.users
        = st.users ++
            [{ id := st.next_user_id, username := un
               password_hash := hash pw, score := 0, is_organizer := org
               created_at := now }]) := by
  have hbase := reachable_invBase h
  constructor
  · intro hex
    unfold create_user
    rw [if_pos]
    simp only [List.any_eq_true, beq_iff_eq]
    obtain ⟨u, hu, he⟩ := hex
    exact ⟨u, hu, he⟩
  · intro hnex
    have hcond : ¬(st.users.any (fun u => u.username == un) = true) := by
      simp only [List.any_eq_true, beq_iff_eq]
      exact hnex
    unfold create_user
    rw [if_neg hcond]
    exact ⟨rfl, fun u hu => Nat.ne_of_lt (hbase.user_id_lt u hu), rfl⟩

theorem create_user_duplicate_detection_witness :
    create_user exHash exStore2 13 "alice" "x" false = (exStore2, none) ∧
    (create_user exHash exStore2 13 "bob" "x" false).2 = some 2 := by
  have hreach : Reachable exStore2 :=
    Reachable.step_create_user exHash 11 "alice" "pw" false
      (Reachable.step_create_challenge 10 "Title" "Desc" "web" "ctf_flag"
        100 (-1) Reachable.init)
  constructor
  · exact (create_user_duplicate_detection exHash exStore2 13 "alice" "x"
      false hreach).1
      ⟨{ id := 1, username := "alice", password_hash := "Hpw", score := 0,
         is_organizer := false, created_at := 11 }, by decide, rfl⟩
  · exact ((create_user_duplicate_detection exHash exStore2 13 "bob" "x"
      false hreach).2 (by decide)).1

/-- C10: `submit_flag` never checks that the submitting user exists: for a
user id carried by no user row, an active challenge, a correct flag and no
prior progress row, it still accepts, appends a submission row and a solved
progress row referencing that id, and the score update matches no user row
so the user table is unchanged. -/
theorem submit_flag_no_user_existence_check (st : Store) (now uid cid : Nat)
    (fl : String) (ch : Challenge)
    (hnouser : ∀ u ∈ st.users, u.id ≠ uid)
    (hch : get_challenge_by_id st cid = some ch)
    (hp : pair_progress st uid cid = none)
    (hic : pyStrip fl = pyStrip ch.flag) :
    submit_flag st now uid cid fl =
      ({ st with
          submissions := st.submissions ++ [submissionRow st now uid cid fl true]
          next_submission_id := st.next_submission_id + 1
          progresses := st.progresses ++ [newProgressRow st now uid cid true]
          next_progress_id := st.next_progress_id + 1 },
        true,
        "Correct! You earned " ++ toString ch.points ++ " points!") ∧
    (submissionRow st now uid cid fl true).user_id = uid ∧
    (newProgressRow st now uid cid true).user_id = uid ∧
    (newProgressRow st now uid cid true).is_solved = true := by
  rw [submit_flag_insert_correct st now uid cid fl ch hch hp hic]
  have husers : st.users.map (bumpScore uid ch.points) = st.users := by
    have : ∀ u ∈ st.users, bumpScore uid ch.points u = u := by
      intro u hu
      unfold bumpScore
      rw [if_neg (by simpa using hnouser u hu)]
    rw [List.map_congr_left this]
    exact List.map_id st.users
  rw [husers]
  exact ⟨rfl, rfl, rfl, rfl⟩

theorem submit_flag_no_user_existence_check_witness :
    (submit_flag exStore1 12 5 1 "ctf_flag").2.1 = true ∧
    (submit_flag exStore1 12 5 1 "ctf_flag").1.users = [] := by
  have h := submit_flag_no_user_existence_check exStore1 12 5 1 "ctf_flag"
    exChallenge (by decide) (by decide) (by decide) (by decide)
  rw [h.1]
  exact ⟨rfl, rfl⟩

/-- C3 fails as stated: `submit_flag` accepts submissions for user ids
that do not exist yet, so a later `create_user` can allocate that same id
and start with score 0 while a solved progress row worth 100 points
already references it.  `cexStore3` is reachable by
create_challenge, submit_flag (user id 1, before any user exists), then
create_user, and its only user has score 0 against a solved-row sum of
100. -/
theorem score_sum_invariant_fails_unchecked_user :
    Reachable cexStore3 ∧
    cexStore3.users.map (fun u => (u.score, solvedPoints cexStore3 u.id))
      = [(0, 100)] := by
  constructor
  · exact Reachable.step_create_user exHash 2 "alice" "pw" false
      (Reachable.step_submit_flag 1 1 1 "secret"
        (Reachable.step_create_challenge 0 "t" "d" "c" "secret" 100 (-1)
          Reachable.init))
  · decide

/-- C3 (amended): restricted to runs in which every `submit_flag` call
names an existing user, every reachable state satisfies the score
invariant: each user's score equals the sum of the points of the
challenges for which that user has a solved progress row. -/
theorem score_sum_invariant_of_valid_reachable (st : Store)
    (h : ReachableV st) : ∀ u ∈ st.users, u.score = solvedPoints st u.id :=
  (reachableV_inv h).score_eq

theorem score_sum_invariant_witness : solvedPoints exStore3 1 = 100 := by
  have hreach : ReachableV exStore3 :=
    ReachableV.step_submit_flag 12 1 1 " ctf_flag "
      (ReachableV.step_create_user exHash 11 "alice" "pw" false
        (ReachableV.step_create_challenge 10 "Title" "Desc" "web" "ctf_flag"
          100 (-1) ReachableV.init))
      ⟨{ id := 1, username := "alice", password_hash := "Hpw", score := 0,
         is_organizer := false, created_at := 11 }, by decide, rfl⟩
  have h := score_sum_invariant_of_valid_reachable exStore3 hreach
    { id := 1, username := "alice", password_hash := "Hpw", score := 100,
      is_organizer := false, created_at := 11 } (by decide)
  simpa using h.symm

theorem progressKey_update_invariant (uid cid now : Nat) (ic : Bool)
    (q : Progress) :
    progressKey uid cid
        (if progressKey uid cid q then updateProgressRow now ic q else q)
      = progressKey uid cid q := by
  by_cases hk : progressKey uid cid q
  · rw [if_pos hk]
    rfl
  · rw [if_neg hk]

theorem find?_map_update (ps : List Progress) (uid cid now : Nat) (ic : Bool) :
    (ps.map (fun q =>
        if progressKey uid cid q then updateProgressRow now ic q else q)).find?
        (progressKey uid cid)
      = (ps.find? (progressKey uid cid)).map (fun q =>
          if progressKey uid cid q then updateProgressRow now ic q else q) := by
  rw [List.find?_map]
  have hc : (progressKey uid cid ∘ fun q =>
      if progressKey uid cid q then updateProgressRow now ic q else q)
      = progressKey uid cid :=
    funext (fun q => progressKey_update_invariant uid cid now ic q)
  rw [hc]

theorem progressKey_newProgressRow (st : Store) (now uid cid : Nat)
    (ic : Bool) : progressKey uid cid (newProgressRow st now uid cid ic)
      = true := by
  simp [progressKey, newProgressRow]

/-- C4: an incorrect submission for an unsolved pair is rejected with the
incorrect-flag message, appends one submission row, bumps the pair's
attempt count by one (count 1 when there was no row), leaves the pair
unsolved and the user table untouched; a following correct submission for
the same pair is then accepted and marks the pair solved. -/
theorem incorrect_then_correct_submission (st : Store) (now1 now2 uid cid : Nat)
    (fl : String) (ch : Challenge)
    (hch : get_challenge_by_id st cid = some ch)
    (hns : pair_solved st uid cid = false)
    (hw : pyStrip fl ≠ pyStrip ch.flag) :
    (submit_flag st now1 uid cid fl).2 = (false, "Incorrect flag. Try again!") ∧
    attemptsOf (submit_flag st now1 uid cid fl).1 uid cid
      = attemptsOf st uid cid + 1 ∧
    pair_solved (submit_flag st now1 uid cid fl).1 uid cid = false ∧
    (submit_flag st now1 uid cid fl).1.users = st.users ∧
    (submit_flag st now1 uid cid fl).1.submissions
      = st.submissions ++ [submissionRow st now1 uid cid fl false] ∧
    (submit_flag (submit_flag st now1 uid cid fl).1 now2 uid cid ch.flag).2.1
      = true ∧
    pair_solved
      (submit_flag (submit_flag st now1 uid cid fl).1 now2 uid cid ch.flag).1
      uid cid = true := by
  rcases hp : pair_progress st uid cid with _ | p
  · rw [submit_flag_insert_wrong st now1 uid cid fl ch hch hp hw]
    have hpfind : st.progresses.find? (progressKey uid cid) = none := by
      simpa [pair_progress] using hp
    have hpE : (st.progresses ++ [newProgressRow st now1 uid cid false]).find?
        (progressKey uid cid) = some (newProgressRow st now1 uid cid false) := by
      rw [List.find?_append, hpfind]
      simp [List.find?_cons_of_pos _ (progressKey_newProgressRow st now1 uid cid false)]
    have hch2 : get_challenge_by_id
        { st with
          submissions := st.submissions ++ [submissionRow st now1 uid cid fl false]
          next_submission_id := st.next_submission_id + 1
          progresses := st.progresses ++ [newProgressRow st now1 uid cid false]
          next_progress_id := st.next_progress_id + 1 } cid = some ch := hch
    have hp2 : pair_progress
        { st with
          submissions := st.submissions ++ [submissionRow st now1 uid cid fl false]
          next_submission_id := st.next_submission_id + 1
          progresses := st.progresses ++ [newProgressRow st now1 uid cid false]
          next_progress_id := st.next_progress_id + 1 } uid cid
        = some (newProgressRow st now1 uid cid false) := hpE
    refine ⟨rfl, ?_, ?_, rfl, rfl, ?_, ?_⟩
    · simp only [attemptsOf, pair_progress, hpE, hpfind]
      rfl
    · simp only [pair_solved, pair_progress, hpE]
      rfl
    · rw [submit_flag_update_correct _ now2 uid cid ch.flag ch
        (newProgressRow st now1 uid cid false) hch2 hp2 rfl rfl]
    · rw [submit_flag_update_correct _ now2 uid cid ch.flag ch
        (newProgressRow st now1 uid cid false) hch2 hp2 rfl rfl]
      simp only [pair_solved, pair_progress]
      rw [find?_map_update, hpE]
      simp [progressKey_newProgressRow, updateProgressRow]
  · have hsol : p.is_solved = false := by
      simp [pair_solved, hp] at hns
      exact hns
    rw [submit_flag_update_wrong st now1 uid cid fl ch p hch hp hsol hw]
    have hpfind : st.progresses.find? (progressKey uid cid) = some p := by
      simpa [pair_progress] using hp
    have hkp : progressKey uid cid p = true := List.find?_some hpfind
    have hpE : (st.progresses.map (fun q =>
        if progressKey uid cid q then updateProgressRow now1 false q else q)).find?
          (progressKey uid cid)
        = some (updateProgressRow now1 false p) := by
      rw [find?_map_update, hpfind]
      simp [hkp]
    have hch2 : get_challenge_by_id
        { st with
          submissions := st.submissions ++ [submissionRow st now1 uid cid fl false]
          next_submission_id := st.next_submission_id + 1
          progresses := st.progresses.map (fun q =>
            if progressKey uid cid q then updateProgressRow now1 false q else q) }
        cid = some ch := hch
    have hp2 : pair_progress
        { st with
          submissions := st.submissions ++ [submissionRow st now1 uid cid fl false]
          next_submission_id := st.next_submission_id + 1
          progresses := st.progresses.map (fun q =>
            if progressKey uid cid q then updateProgressRow now1 false q else q) }
        uid cid = some (updateProgressRow now1 false p) := hpE
    refine ⟨rfl, ?_, ?_, rfl, rfl, ?_, ?_⟩
    · simp only [attemptsOf, pair_progress, hpE, hpfind]
      rfl
    · simp only [pair_solved, pair_progress, hpE]
      rfl
    · rw [submit_flag_update_correct _ now2 uid cid ch.flag ch
        (updateProgressRow now1 false p) hch2 hp2 rfl rfl]
    · rw [submit_flag_update_correct _ now2 uid cid ch.flag ch
        (updateProgressRow now1 false p) hch2 hp2 rfl rfl]
      simp only [pair_solved, pair_progress]
      rw [find?_map_update, hpE]
      have hkq : progressKey uid cid (updateProgressRow now1 false p) = true :=
        hkp
      simp only [Option.map, Option.getD, hkq, if_true]
      rfl

theorem incorrect_then_correct_submission_witness :
    (submit_flag exStore2 12 1 1 "nope").2
      = (false, "Incorrect flag. Try again!") ∧
    attemptsOf exStoreWrong 1 1 = 1 ∧
    (submit_flag exStoreWrong 13 1 1 "ctf_flag").2.1 = true := by
  have h := incorrect_then_correct_submission exStore2 12 13 1 1 "nope"
    exChallenge (by decide) (by decide) (by decide)
  exact ⟨h.1, h.2.1, h.2.2.2.2.2.1⟩

theorem challengeLE_trans : ∀ (a b c : Challenge),
    challengeLE a b → challengeLE b c → challengeLE a c := by
  intro a b c hab hbc
  simp only [challengeLE, decide_eq_true_eq] at *
  omega

theorem challengeLE_total : ∀ (a b : Challenge),
    challengeLE a b || challengeLE b a := by
  intro a b
  simp only [challengeLE, Bool.or_eq_true, decide_eq_true_eq]
  omega

/-- C5: `get_all_challenges` returns exactly the challenges whose active
flag is set, in ascending point order; within any group of equal point
values the rows keep their insertion (rowid) order, i.e. filtering the
result to one point value gives exactly the active rows of that point
value in table order. -/
theorem get_all_challenges_spec (st : Store) :
    (∀ c, c ∈ get_all_challenges st ↔ c ∈ st.challenges ∧ c.is_active = true) ∧
    (get_all_challenges st).Pairwise (fun a b => a.points ≤ b.points) ∧
    (∀ pts : Int, (get_all_challenges st).filter (fun c => c.points == pts)
      = (st.challenges.filter (fun c => c.is_active)).filter
          (fun c => c.points == pts)) := by
  refine ⟨?_, ?_, ?_⟩
  · intro c
    unfold get_all_challenges
    rw [List.mem_mergeSort, List.mem_filter]
  · unfold get_all_challenges
    have h := List.sorted_mergeSort challengeLE_trans challengeLE_total
      (st.challenges.filter (fun c => c.is_active))
    exact h.imp (by
      intro a b hab
      simpa [challengeLE] using hab)
  · intro pts
    have hmem : ∀ c ∈ (st.challenges.filter (fun c => c.is_active)).filter
        (fun c => c.points == pts), c.points = pts := by
      intro c hc
      have := (List.mem_filter.mp hc).2
      simpa using this
    have hpair : ((st.challenges.filter (fun c => c.is_active)).filter
        (fun c => c.points == pts)).Pairwise
        (fun a b => challengeLE a b = true) := by
      apply List.pairwise_of_forall_mem_list
      intro a ha b hb
      simp [challengeLE, hmem a ha, hmem b hb]
    have hsubsorted : List.Sublist
        ((st.challenges.filter (fun c => c.is_active)).filter
          (fun c => c.points == pts)) (get_all_challenges st) := by
      unfold get_all_challenges
      exact List.sublist_mergeSort challengeLE_trans challengeLE_total hpair
        (List.filter_sublist _)
    have hfil : List.Sublist
        (((st.challenges.filter (fun c => c.is_active)).filter
          (fun c => c.points == pts)).filter (fun c => c.points == pts))
        ((get_all_challenges st).filter (fun c => c.points == pts)) :=
      hsubsorted.filter _
    rw [List.filter_eq_self.mpr (fun a ha => by simp [hmem a ha])] at hfil
    have hperm : List.Perm
        ((get_all_challenges st).filter (fun c => c.points == pts))
        ((st.challenges.filter (fun c => c.is_active)).filter
          (fun c => c.points == pts)) := by
      unfold get_all_challenges
      exact (List.mergeSort_perm _ _).filter _
    exact ((hfil.eq_of_length hperm.length_eq.symm)).symm

theorem leaderboardLE_trans : ∀ (a b c : User),
    leaderboardLE a b → leaderboardLE b c → leaderboardLE a c := by
  intro a b c hab hbc
  simp only [leaderboardLE, decide_eq_true_eq] at *
  omega

theorem leaderboardLE_total : ∀ (a b : User),
    leaderboardLE a b || leaderboardLE b a := by
  intro a b
  simp only [leaderboardLE, Bool.or_eq_true, decide_eq_true_eq]
  omega

/-- C6: `get_leaderboard` returns exactly the users with score strictly
above 0 as (username, score, created_at) triples, ordered by score
descending with equal scores ordered by earlier creation timestamp
first. -/
theorem get_leaderboard_spec (st : Store) :
    List.Perm (get_leaderboard st)
      ((st.users.filter (fun u => decide (0 < u.score))).map
        (fun u => (u.username, u.score, u.created_at))) ∧
    (get_leaderboard st).Pairwise
      (fun a b => b.2.1 ≤ a.2.1 ∧ (a.2.1 = b.2.1 → a.2.2 ≤ b.2.2)) := by
  constructor
  · unfold get_leaderboard
    exact (List.mergeSort_perm _ _).map _
  · unfold get_leaderboard
    apply List.pairwise_map.mpr
    have h := List.sorted_mergeSort leaderboardLE_trans leaderboardLE_total
      (st.users.filter (fun u => decide (0 < u.score)))
    exact h.imp (by
      intro a b hab
      simp only [leaderboardLE, decide_eq_true_eq] at hab
      dsimp only
      constructor
      · omega
      · intro he
        omega)

theorem get_challenge_by_id_erase (st : Store) (cid : Nat) :
    get_challenge_by_id (eraseAttempts st) cid
      = (get_challenge_by_id st cid).map eraseChallengeAttempts := by
  unfold get_challenge_by_id eraseAttempts
  simp only [List.find?_map]
  rfl

theorem pair_progress_erase (st : Store) (uid cid : Nat) :
    pair_progress (eraseAttempts st) uid cid
      = (pair_progress st uid cid).map eraseProgressAttempts := by
  unfold pair_progress eraseAttempts
  simp only [List.find?_map]
  rfl

theorem map_eraseChallenge_idem (l : List Challenge) :
    (l.map eraseChallengeAttempts).map eraseChallengeAttempts
      = l.map eraseChallengeAttempts := by
  rw [List.map_map]
  apply List.map_congr_left
  intro a _
  rfl

theorem map_eraseProgress_idem (l : List Progress) :
    (l.map eraseProgressAttempts).map eraseProgressAttempts
      = l.map eraseProgressAttempts := by
  rw [List.map_map]
  apply List.map_congr_left
  intro a _
  rfl

theorem eraseAttempts_idem (st : Store) :
    eraseAttempts (eraseAttempts st) = eraseAttempts st := by
  obtain ⟨us, cs, ss, ps, n1, n2, n3, n4⟩ := st
  simp only [eraseAttempts]
  rw [Store.mk.injEq]
  refine ⟨rfl, ?_, rfl, ?_, rfl, rfl, rfl, rfl⟩
  · exact map_eraseChallenge_idem cs
  · exact map_eraseProgress_idem ps

theorem map_erase_update (ps : List Progress) (uid cid now : Nat) (ic : Bool) :
    ((ps.map eraseProgressAttempts).map (fun q =>
        if progressKey uid cid q then updateProgressRow now ic q else q)).map
      eraseProgressAttempts
    = (ps.map (fun q =>
        if progressKey uid cid q then updateProgressRow now ic q else q)).map
      eraseProgressAttempts := by
  simp only [List.map_map]
  apply List.map_congr_left
  intro q _
  simp only [Function.comp]
  by_cases hk : progressKey uid cid q = true
  · rw [show progressKey uid cid (eraseProgressAttempts q)
        = progressKey uid cid q from rfl]
    rw [hk]
    rfl
  · rw [show progressKey uid cid (eraseProgressAttempts q)
        = progressKey uid cid q from rfl]
    rw [Bool.not_eq_true] at hk
    rw [hk]
    rfl

theorem submit_flag_erase (st : Store) (now uid cid : Nat) (fl : String) :
    (submit_flag (eraseAttempts st) now uid cid fl).2
      = (submit_flag st now uid cid fl).2 ∧
    eraseAttempts (submit_flag (eraseAttempts st) now uid cid fl).1
      = eraseAttempts (submit_flag st now uid cid fl).1 := by
  rcases hch : get_challenge_by_id st cid with _ | ch
  · have hch' : get_challenge_by_id (eraseAttempts st) cid = none := by
      rw [get_challenge_by_id_erase, hch]
      rfl
    rw [submit_flag_not_found st now uid cid fl hch,
      submit_flag_not_found _ now uid cid fl hch']
    exact ⟨rfl, eraseAttempts_idem st⟩
  · have hch' : get_challenge_by_id (eraseAttempts st) cid
        = some (eraseChallengeAttempts ch) := by
      rw [get_challenge_by_id_erase, hch]
      rfl
    rcases hp : pair_progress st uid cid with _ | p
    · have hp' : pair_progress (eraseAttempts st) uid cid = none := by
        rw [pair_progress_erase, hp]
        rfl
      by_cases hic : pyStrip fl = pyStrip ch.flag
      · rw [submit_flag_insert_correct st now uid cid fl ch hch hp hic,
          submit_flag_insert_correct (eraseAttempts st) now uid cid fl
            (eraseChallengeAttempts ch) hch' hp' hic]
        refine ⟨rfl, ?_⟩
        simp only [eraseAttempts]
        rw [Store.mk.injEq]
        refine ⟨rfl, map_eraseChallenge_idem st.challenges, rfl, ?_,
          rfl, rfl, rfl, rfl⟩
        rw [List.map_append, List.map_append,
          map_eraseProgress_idem st.progresses]
        rfl
      · rw [submit_flag_insert_wrong st now uid cid fl ch hch hp hic,
          submit_flag_insert_wrong (eraseAttempts st) now uid cid fl
            (eraseChallengeAttempts ch) hch' hp' hic]
        refine ⟨rfl, ?_⟩
        simp only [eraseAttempts]
        rw [Store.mk.injEq]
        refine ⟨rfl, map_eraseChallenge_idem st.challenges, rfl, ?_,
          rfl, rfl, rfl, rfl⟩
        rw [List.map_append, List.map_append,
          map_eraseProgress_idem st.progresses]
        rfl
    · have hp' : pair_progress (eraseAttempts st) uid cid
          = some (eraseProgressAttempts p) := by
        rw [pair_progress_erase, hp]
        rfl
      rcases hsol : p.is_solved with _ | _
      · have hsol' : (eraseProgressAttempts p).is_solved = false := hsol
        by_cases hic : pyStrip fl = pyStrip ch.flag
        · rw [submit_flag_update_correct st now uid cid fl ch p hch hp hsol
            hic,
            submit_flag_update_correct (eraseAttempts st) now uid cid fl
              (eraseChallengeAttempts ch) (eraseProgressAttempts p) hch' hp'
              hsol' hic]
          refine ⟨rfl, ?_⟩
          simp only [eraseAttempts]
          rw [Store.mk.injEq]
          refine ⟨rfl, map_eraseChallenge_idem st.challenges, rfl, ?_,
            rfl, rfl, rfl, rfl⟩
          exact map_erase_update st.progresses uid cid now true
        · rw [submit_flag_update_wrong st now uid cid fl ch p hch hp hsol hic,
            submit_flag_update_wrong (eraseAttempts st) now uid cid fl
              (eraseChallengeAttempts ch) (eraseProgressAttempts p) hch' hp'
              hsol' hic]
          refine ⟨rfl, ?_⟩
          simp only [eraseAttempts]
          rw [Store.mk.injEq]
          refine ⟨rfl, map_eraseChallenge_idem st.challenges, rfl, ?_,
            rfl, rfl, rfl, rfl⟩
          exact map_erase_update st.progresses uid cid now false
      · have hsol' : (eraseProgressAttempts p).is_solved = true := hsol
        rw [submit_flag_already_solved st now uid cid fl ch p hch hp hsol,
          submit_flag_already_solved (eraseAttempts st) now uid cid fl
            (eraseChallengeAttempts ch) (eraseProgressAttempts p) hch' hp'
            hsol']
        exact ⟨rfl, eraseAttempts_idem st⟩

/-- C9: `submit_flag` never reads `max_attempts` or `attempts_count`: two
stores that agree except on those fields (their erasures are equal)
produce the same (accepted, message) result and post-states that again
agree except on those fields. -/
theorem submit_flag_independent_of_attempt_limits (st st' : Store)
    (now uid cid : Nat) (fl : String)
    (h : eraseAttempts st = eraseAttempts st') :
    (submit_flag st now uid cid fl).2 = (submit_flag st' now uid cid fl).2 ∧
    eraseAttempts (submit_flag st now uid cid fl).1
      = eraseAttempts (submit_flag st' now uid cid fl).1 := by
  obtain ⟨h1, h2⟩ := submit_flag_erase st now uid cid fl
  obtain ⟨h1', h2'⟩ := submit_flag_erase st' now uid cid fl
  rw [h] at h1 h2
  exact ⟨h1.symm.trans h1', h2.symm.trans h2'⟩

theorem submit_flag_independent_of_attempt_limits_witness :
    (submit_flag exStore2 12 1 1 "ctf_flag").2
      = (submit_flag exStore2b 12 1 1 "ctf_flag").2 :=
  (submit_flag_independent_of_attempt_limits exStore2 exStore2b 12 1 1
    "ctf_flag" (by decide)).1
